import Mathlib

/-!
Verification of the Teleport file-transfer core against its specification.

The C++ sources are embedded shallowly: machine integers become `Nat`
with explicit `% 2 ^ w` where a narrowing cast or wraparound matters,
byte strings become `List Nat` (each element a byte value), and each
translated function keeps the name of the C++ function it embeds.
-/

namespace Teleport

/-! ## Generic bit-recombination helpers

Used to reason about the big-endian serializers in `resume_manager.hpp`,
`chunk.hpp` and `protocol.cpp`.
-/

theorem shiftRight_shiftLeft_or_mod (v n : Nat) :
    (((v >>> n) <<< n) ||| v % 2 ^ n) = v := by
  apply Nat.eq_of_testBit_eq
  intro i
  simp only [Nat.testBit_or, Nat.testBit_shiftLeft, Nat.testBit_shiftRight,
    Nat.testBit_mod_two_pow, ge_iff_le]
  by_cases h : n ≤ i
  · have h1 : n + (i - n) = i := by omega
    have h2 : ¬ i < n := by omega
    simp [h, h1, h2]
  · have h2 : i < n := by omega
    simp [h, h2]

theorem mod_two_pow_shiftRight (x n k : Nat) :
    (x % 2 ^ (n + k)) >>> k = (x >>> k) % 2 ^ n := by
  apply Nat.eq_of_testBit_eq
  intro i
  simp only [Nat.testBit_shiftRight, Nat.testBit_mod_two_pow]
  by_cases h : i < n
  · have h1 : k + i < n + k := by omega
    simp [h, h1]
  · have h1 : ¬ k + i < n + k := by omega
    simp [h, h1]

theorem shiftRight_lt_of_lt (v : Nat) {n k : Nat} (h : v < 2 ^ (n + k)) :
    v >>> k < 2 ^ n := by
  have h1 : v >>> k = v / 2 ^ k := Nat.shiftRight_eq_div_pow v k
  rw [h1]
  apply Nat.div_lt_of_lt_mul
  calc v < 2 ^ (n + k) := h
  _ = 2 ^ k * 2 ^ n := by rw [← Nat.pow_add]; ring_nf

/-! ## C2: chunk header offset field

`ParallelTransfer::sender_worker` (parallel_transfer.cpp:283-287) builds
the 16-byte `ChunkHeader` for a work item. The offset field is computed
as `static_cast<uint32_t>(work.offset % UINT32_MAX)`, i.e. a reduction
modulo `2 ^ 32 - 1` followed by the narrowing cast modulo `2 ^ 32`.
-/

def UINT32_MAX : Nat := 4294967295

/-- Work item produced by `ParallelTransfer::send_file`
(struct `ParallelWork`, parallel_transfer.hpp:103-110). Fields hold
the C++ values: `file_id`, `chunk_id` and `size` are `uint32_t`,
`offset` is `uint64_t`. -/
structure ParallelWork where
  file_id : Nat
  chunk_id : Nat
  offset : Nat
  size : Nat
deriving Repr, DecidableEq

/-- The 16-byte chunk header (chunk.hpp:23-29); all four fields `uint32_t`. -/
structure ChunkHeader where
  file_id : Nat
  chunk_id : Nat
  offset : Nat
  size : Nat
deriving Repr, DecidableEq

/-- Header construction in `ParallelTransfer::sender_worker`
(parallel_transfer.cpp:283-287): the offset field is
`static_cast<uint32_t>(work.offset % UINT32_MAX)`. -/
def sender_worker_header (work : ParallelWork) : ChunkHeader :=
  { file_id := work.file_id
    chunk_id := work.chunk_id
    offset := (work.offset % UINT32_MAX) % 2 ^ 32
    size := work.size }

/-- C2: the offset field of the chunk header is NOT the starting byte
offset reduced modulo `2 ^ 32`: the code reduces modulo
`UINT32_MAX = 2 ^ 32 - 1`. At the default 2 MiB chunk size, chunk 2048
of a file larger than 4 GiB starts at byte offset
`2048 * 2097152 = 2 ^ 32`; the specified field value is `0`, but the
code computes `1`. This contradicts the documentation in chunk.hpp
(offset holds the "lower 32 bits" of the file offset) and the spec. -/
theorem c2_offset_field_code_bug :
    (sender_worker_header
      { file_id := 0, chunk_id := 2048, offset := 2048 * 2097152,
        size := 2097152 }).offset = 1
    ∧ (2048 * 2097152) % 2 ^ 32 = 0
    ∧ (1 : Nat) ≠ 0 := by
  refine ⟨?_, ?_, ?_⟩ <;> decide

/-! ## C5 / C10: control frame length validation

`MessageReader::read` (protocol.cpp:445-476) reads a 4-byte big-endian
length prefix, rejects `len == 0 || len > 1024 * 1024` with a
`TELEPORT_ERROR_PROTOCOL` error before reading any body bytes, then
reads `len` body bytes.
-/

def TELEPORT_ERROR_PROTOCOL : Int := -11

def TELEPORT_ERROR_SOCKET_RECV : Int := -7

/-- Big-endian 32-bit value from four bytes, as computed in
`MessageReader::read` (protocol.cpp:453-456). -/
def be32 (b0 b1 b2 b3 : Nat) : Nat :=
  (b0 <<< 24) ||| (b1 <<< 16) ||| (b2 <<< 8) ||| b3

/-- The framing layer of `MessageReader::read` (protocol.cpp:445-476)
over the incoming byte stream: read the 4-byte length prefix (a short
read surfaces the socket error from `recv_all`), validate
`len == 0 || len > 1024 * 1024` as a Protocol error, then read the
`len` body bytes. Returns the validated length and body bytes; body
parsing (`ControlMessage::deserialize`) happens after this point. -/
def MessageReader_read_frame (input : List Nat) : Except Int (Nat × List Nat) :=
  match input with
  | b0 :: b1 :: b2 :: b3 :: rest =>
    let len := be32 b0 b1 b2 b3
    if len = 0 ∨ len > 1024 * 1024 then
      Except.error TELEPORT_ERROR_PROTOCOL
    else if rest.length < len then
      Except.error TELEPORT_ERROR_SOCKET_RECV
    else
      Except.ok (len, rest.take len)
  | _ => Except.error TELEPORT_ERROR_SOCKET_RECV

/-- C5: a frame whose 4-byte big-endian length prefix exceeds 1 MiB is
rejected with a Protocol error (-11), whatever bytes follow the prefix:
the body is never read or parsed. -/
theorem c5_read_rejects_oversized_frame (b0 b1 b2 b3 : Nat) (rest : List Nat)
    (h : be32 b0 b1 b2 b3 > 1024 * 1024) :
    MessageReader_read_frame (b0 :: b1 :: b2 :: b3 :: rest)
      = Except.error TELEPORT_ERROR_PROTOCOL := by
  unfold MessageReader_read_frame
  simp only []
  rw [if_pos (Or.inr h)]

/-- Witness for C5: the prefix 00 10 00 01 encodes 1048577 bytes, one
over the limit; the error is returned with no body present at all. -/
theorem c5_read_rejects_oversized_frame_witness :
    be32 0 16 0 1 > 1024 * 1024
    ∧ MessageReader_read_frame [0, 16, 0, 1]
        = Except.error TELEPORT_ERROR_PROTOCOL :=
  ⟨by decide, c5_read_rejects_oversized_frame 0 16 0 1 [] (by decide)⟩

/-- C10: a frame whose length prefix is zero is likewise rejected with a
Protocol error (-11) and never surfaced as an empty message, whatever
bytes follow the prefix. -/
theorem c10_read_rejects_zero_length_frame (rest : List Nat) :
    MessageReader_read_frame (0 :: 0 :: 0 :: 0 :: rest)
      = Except.error TELEPORT_ERROR_PROTOCOL := by
  unfold MessageReader_read_frame
  simp only []
  rw [if_pos (Or.inl (by decide))]

/-! ## C4: protocol-version validation in the receiver handshake

`ControlServer::perform_handshake` (control_server.cpp:219-264), after
a successful `MessageReader::read`, requires the message type to be
`Handshake`, parses the payload, and validates
`handshake.protocol_version != TELEPORT_PROTOCOL_VERSION` (version 1,
teleport.h:47). On mismatch it writes `ERROR{code:-11, fatal:true}` and
returns a Protocol error; on match it writes a `HANDSHAKE_ACK`.
-/

/-- Control message types (protocol.hpp:30-51). -/
inductive ControlMessageType where
  | Handshake | HandshakeAck | FileList | Accept | Reject
  | Start | ResumeRequest | Complete | Error
deriving Repr, DecidableEq

def TELEPORT_PROTOCOL_VERSION : Int := 1

/-- `HandshakeMessage` (protocol.hpp:63-71); strings as byte lists. -/
structure HandshakeMessage where
  protocol_version : Int
  device_name : List Nat
  device_os : List Nat
  session_token : List Nat
deriving Repr, DecidableEq

/-- `ErrorMessage` (protocol.hpp:154-161). -/
structure ErrorMessage where
  code : Int
  message : List Nat
  fatal : Bool
deriving Repr, DecidableEq

/-- A control message written back to the sender during the handshake. -/
inductive SentMessage where
  | errorMsg (e : ErrorMessage)
  | handshakeAck (h : HandshakeMessage)
deriving Repr, DecidableEq

/-- Result of the handshake: the messages written to the socket and the
returned `Result<void>` (error codes as `Int`). -/
structure HandshakeOutcome where
  sent : List SentMessage
  result : Except Int Unit
deriving Repr

/-- Byte list of the C++ string literal used in the mismatch reply. -/
def protocolMismatchText : List Nat :=
  [80, 114, 111, 116, 111, 99, 111, 108, 32, 118, 101, 114, 115, 105,
   111, 110, 32, 109, 105, 115, 109, 97, 116, 99, 104]

/-- `ControlServer::perform_handshake` (control_server.cpp:219-264)
after a successfully read control message: type check, then protocol
version check with `ERROR{code:-11, fatal:true}` reply and Protocol
error return on mismatch, else a `HANDSHAKE_ACK` reply built from the
local device identity and a fresh session token. -/
def perform_handshake (msgType : ControlMessageType) (hs : HandshakeMessage)
    (localName localOs token : List Nat) : HandshakeOutcome :=
  if msgType ≠ ControlMessageType.Handshake then
    { sent := [], result := Except.error TELEPORT_ERROR_PROTOCOL }
  else if hs.protocol_version ≠ TELEPORT_PROTOCOL_VERSION then
    { sent := [SentMessage.errorMsg
        { code := TELEPORT_ERROR_PROTOCOL,
          message := protocolMismatchText, fatal := true }],
      result := Except.error TELEPORT_ERROR_PROTOCOL }
  else
    { sent := [SentMessage.handshakeAck
        { protocol_version := TELEPORT_PROTOCOL_VERSION,
          device_name := localName, device_os := localOs,
          session_token := token }],
      result := Except.ok () }

/-- C4: on a HANDSHAKE whose protocol_version differs from the local
version 1, the receiver replies with an ERROR carrying code -11 and
fatal=true and the handshake returns a Protocol error; on a matching
version it instead replies with a HANDSHAKE_ACK and succeeds. -/
theorem c4_handshake_version_check (hs : HandshakeMessage)
    (localName localOs token : List Nat) :
    (hs.protocol_version ≠ 1 →
      perform_handshake ControlMessageType.Handshake hs localName localOs token
        = { sent := [SentMessage.errorMsg
              { code := -11, message := protocolMismatchText, fatal := true }],
            result := Except.error (-11) })
    ∧ (hs.protocol_version = 1 →
      perform_handshake ControlMessageType.Handshake hs localName localOs token
        = { sent := [SentMessage.handshakeAck
              { protocol_version := 1, device_name := localName,
                device_os := localOs, session_token := token }],
            result := Except.ok () }) := by
  constructor
  · intro h
    simp [perform_handshake, TELEPORT_PROTOCOL_VERSION,
      TELEPORT_ERROR_PROTOCOL, h]
  · intro h
    simp [perform_handshake, TELEPORT_PROTOCOL_VERSION, h]

/-- Witness for C4: scenario S2 of the spec, a handshake claiming
protocol version 99 is rejected, and the same handshake at version 1
is acknowledged. -/
theorem c4_handshake_version_check_witness :
    (perform_handshake ControlMessageType.Handshake
        { protocol_version := 99, device_name := [83],
          device_os := [76, 105, 110, 117, 120], session_token := [] }
        [82] [76, 105, 110, 117, 120] [116]
      = { sent := [SentMessage.errorMsg
            { code := -11, message := protocolMismatchText, fatal := true }],
          result := Except.error (-11) })
    ∧ (perform_handshake ControlMessageType.Handshake
        { protocol_version := 1, device_name := [83],
          device_os := [76, 105, 110, 117, 120], session_token := [] }
        [82] [76, 105, 110, 117, 120] [116]
      = { sent := [SentMessage.handshakeAck
            { protocol_version := 1, device_name := [82],
              device_os := [76, 105, 110, 117, 120],
              session_token := [116] }],
          result := Except.ok () }) :=
  ⟨(c4_handshake_version_check
      { protocol_version := 99, device_name := [83],
        device_os := [76, 105, 110, 117, 120], session_token := [] }
      [82] [76, 105, 110, 117, 120] [116]).1 (by decide),
   (c4_handshake_version_check
      { protocol_version := 1, device_name := [83],
        device_os := [76, 105, 110, 117, 120], session_token := [] }
      [82] [76, 105, 110, 117, 120] [116]).2 rfl⟩

/-! ## C6: device registry expiry

`DeviceList` (device_list.cpp) keeps an id-keyed map `m_devices` plus
an insertion-order vector `m_order`. `remove_expired`
(device_list.cpp:32-60) erases every device for which
`Device::is_expired(ttl)` holds (types.h:140-142:
`now_ms() - last_seen_ms > ttl_ms`), collects their ids, and, when any
expired, drops from `m_order` the ids no longer present in the map.
The map is modelled as an association list in iteration order.
-/

/-- `Device` (types.h), restricted to the fields the registry logic
reads: the id key, the display name, and the last-discovery
timestamp (`int64_t`). -/
structure Device where
  id : List Nat
  name : List Nat
  last_seen_ms : Int
deriving Repr, DecidableEq

/-- `Device::is_expired` (types.h:140-142), with the `now_ms()` reading
passed explicitly: `(now_ms() - last_seen_ms) > ttl_ms`. -/
def Device.is_expired (d : Device) (now : Int) (ttl_ms : Int) : Bool :=
  now - d.last_seen_ms > ttl_ms

/-- `DeviceList` state: TTL (`uint32_t`), the id-keyed device map as an
association list in iteration order, and the insertion-order vector. -/
structure DeviceList where
  ttl_ms : Nat
  devices : List (List Nat × Device)
  order : List (List Nat)
deriving Repr

/-- `std::unordered_map::find` on the association list: first binding
with the given key. -/
def mapFind (l : List (List Nat × Device)) (id : List Nat) : Option Device :=
  match l with
  | [] => none
  | p :: t => if p.1 = id then some p.2 else mapFind t id

/-- `DeviceList::remove_expired` (device_list.cpp:32-60): erase expired
bindings from the map while collecting their ids, then (only when some
device expired) erase from the order vector every id no longer found in
the map. -/
def remove_expired (st : DeviceList) (now : Int) :
    List (List Nat) × DeviceList :=
  let expired := (st.devices.filter
    (fun p => p.2.is_expired now st.ttl_ms)).map Prod.fst
  let devices2 := st.devices.filter
    (fun p => !(p.2.is_expired now st.ttl_ms))
  let order2 := if expired.isEmpty then st.order
    else st.order.filter (fun id => (mapFind devices2 id).isSome)
  (expired, { st with devices := devices2, order := order2 })

theorem mapFind_eq_none_iff (l : List (List Nat × Device)) (id : List Nat) :
    mapFind l id = none ↔ ∀ p ∈ l, p.1 ≠ id := by
  induction l with
  | nil => simp [mapFind]
  | cons p t ih =>
    by_cases h : p.1 = id
    · simp [mapFind, h]
    · simp [mapFind, h, ih]

theorem mapFind_isSome_of_mem (l : List (List Nat × Device))
    (id : List Nat) (d : Device) (h : (id, d) ∈ l) :
    (mapFind l id).isSome = true := by
  induction l with
  | nil => simp at h
  | cons p t ih =>
    by_cases hp : p.1 = id
    · simp [mapFind, hp]
    · rcases List.mem_cons.mp h with h1 | h1
      · exact absurd (congrArg Prod.fst h1.symm) hp
      · simp [mapFind, hp, ih h1]

theorem mem_of_mapFind_eq_some (l : List (List Nat × Device))
    (id : List Nat) (d : Device) (h : mapFind l id = some d) :
    (id, d) ∈ l := by
  induction l with
  | nil => simp [mapFind] at h
  | cons p t ih =>
    by_cases hp : p.1 = id
    · rw [mapFind, if_pos hp] at h
      have hpd : p = (id, d) := by
        cases p
        simp_all
      rw [← hpd]
      exact List.mem_cons_self _ _
    · rw [mapFind, if_neg hp] at h
      exact List.mem_cons_of_mem _ (ih h)

/-- With no duplicate keys, a key appears with at most one value. -/
theorem value_unique_of_nodup_keys (l : List (List Nat × Device))
    (hnd : (l.map Prod.fst).Nodup) (id : List Nat) (d1 d2 : Device)
    (h1 : (id, d1) ∈ l) (h2 : (id, d2) ∈ l) : d1 = d2 := by
  induction l with
  | nil => simp at h1
  | cons p t ih =>
    rw [List.map_cons, List.nodup_cons] at hnd
    rcases List.mem_cons.mp h1 with e1 | e1 <;>
      rcases List.mem_cons.mp h2 with e2 | e2
    · rw [← e1] at e2; exact (((Prod.mk.injEq _ _ _ _).mp e2).2).symm
    · exact absurd (List.mem_map.mpr ⟨(id, d2), e2, by rw [← e1]⟩) hnd.1
    · exact absurd (List.mem_map.mpr ⟨(id, d1), e1, by rw [← e2]⟩) hnd.1
    · exact ih hnd.2 e1 e2

/-- C6: for every registry state with well-formed bookkeeping (unique
map keys; every ordered id present in the map), `remove_expired`
returns exactly the ids of the devices with `now - last_seen_ms > ttl`,
removes exactly those from the map, removes every returned id from the
order vector, and keeps every unexpired device in both. -/
theorem c6_remove_expired_exact (st : DeviceList) (now : Int)
    (hnd : (st.devices.map Prod.fst).Nodup) :
    (∀ id, id ∈ (remove_expired st now).1 ↔
      ∃ d, (id, d) ∈ st.devices ∧ now - d.last_seen_ms > st.ttl_ms)
    ∧ (∀ id d, (id, d) ∈ (remove_expired st now).2.devices ↔
      (id, d) ∈ st.devices ∧ ¬(now - d.last_seen_ms > st.ttl_ms))
    ∧ (∀ id ∈ (remove_expired st now).1,
      mapFind (remove_expired st now).2.devices id = none
      ∧ id ∉ (remove_expired st now).2.order)
    ∧ (∀ id ∈ st.order, ∀ d, (id, d) ∈ st.devices →
      ¬(now - d.last_seen_ms > st.ttl_ms) →
      id ∈ (remove_expired st now).2.order) := by
  have hmem2 : ∀ id d, (id, d) ∈ (remove_expired st now).2.devices ↔
      (id, d) ∈ st.devices ∧ ¬(now - d.last_seen_ms > st.ttl_ms) := by
    intro id d
    simp [remove_expired, List.mem_filter, Device.is_expired]
  have hexp : ∀ id, id ∈ (remove_expired st now).1 ↔
      ∃ d, (id, d) ∈ st.devices ∧ now - d.last_seen_ms > st.ttl_ms := by
    intro id
    simp only [remove_expired, List.mem_map, List.mem_filter]
    constructor
    · rintro ⟨⟨i, d⟩, ⟨hm, he⟩, rfl⟩
      exact ⟨d, hm, by simpa [Device.is_expired] using he⟩
    · rintro ⟨d, hm, he⟩
      exact ⟨(id, d), ⟨hm, by simpa [Device.is_expired] using he⟩, rfl⟩
  have hgone : ∀ id ∈ (remove_expired st now).1,
      mapFind (remove_expired st now).2.devices id = none := by
    intro id hid
    rcases (hexp id).mp hid with ⟨d, hm, he⟩
    rw [mapFind_eq_none_iff]
    rintro ⟨i, d2⟩ hp rfl
    have h2 := (hmem2 i d2).mp hp
    have : d2 = d := value_unique_of_nodup_keys st.devices hnd i d2 d h2.1 hm
    rw [this] at h2
    exact h2.2 he
  have horder : (remove_expired st now).2.order
      = if (remove_expired st now).1.isEmpty then st.order
        else st.order.filter
          (fun i => (mapFind (remove_expired st now).2.devices i).isSome) :=
    rfl
  refine ⟨hexp, hmem2, ?_, ?_⟩
  · intro id hid
    refine ⟨hgone id hid, ?_⟩
    have hne : ¬((remove_expired st now).1.isEmpty = true) := by
      rcases hl : (remove_expired st now).1 with _ | ⟨a, t⟩
      · rw [hl] at hid; simp at hid
      · simp
    intro hmemord
    rw [horder, if_neg hne, List.mem_filter] at hmemord
    rw [hgone id hid] at hmemord
    simp at hmemord
  · intro id hid d hmem hunexp
    by_cases hempty : (remove_expired st now).1.isEmpty = true
    · rw [horder, if_pos hempty]
      exact hid
    · rw [horder, if_neg hempty, List.mem_filter]
      refine ⟨hid, ?_⟩
      exact mapFind_isSome_of_mem _ id d ((hmem2 id d).mpr ⟨hmem, hunexp⟩)

/-- Witness for C6: scenario S5 of the spec. One device, last seen at
time 0 with ttl 100; at now = 200 it is returned as expired, gone from
the map and from the order vector. -/
theorem c6_remove_expired_exact_witness :
    ((List.replicate 1 ((([68] : List Nat),
        ({ id := [68], name := [68], last_seen_ms := 0 } : Device))))
        |>.map Prod.fst).Nodup
    ∧ (∀ id, id ∈ (remove_expired
        { ttl_ms := 100,
          devices := [([68], { id := [68], name := [68], last_seen_ms := 0 })],
          order := [[68]] } 200).1 ↔
      ∃ d, (id, d) ∈ [(([68] : List Nat),
          ({ id := [68], name := [68], last_seen_ms := 0 } : Device))]
        ∧ 200 - d.last_seen_ms > (100 : Int)) := by
  constructor
  · decide
  · exact (c6_remove_expired_exact
      { ttl_ms := 100,
        devices := [([68], { id := [68], name := [68], last_seen_ms := 0 })],
        order := [[68]] } 200 (by decide)).1

/-! ## C7: primary local IP selection

`get_primary_local_ip` (pal.cpp:116-154) scans the list produced by
`get_local_ips` in three preference passes (192.168.*, 10.*,
172.16-31.*) and otherwise falls back to the first entry; an empty
list yields the literal "127.0.0.1". IP strings are byte lists.
-/

/-- `s.substr(0, pat.size()) == pat`: the pattern is an initial
segment of the string. -/
def beginsWith : List Nat → List Nat → Bool
  | [], _ => true
  | _ :: _, [] => false
  | p :: ps, c :: cs => p == c && beginsWith ps cs

/-- std::isspace in the default locale (bytes 9-13 and 32). -/
def isSpaceByte (b : Nat) : Bool :=
  (9 ≤ b && b ≤ 13) || b == 32

def isDigitByte (b : Nat) : Bool :=
  48 ≤ b && b ≤ 57

/-- `std::stoi`: skip leading whitespace, optional sign, then decimal
digits; `none` when no digits follow (invalid_argument) or the value
leaves the int range (out_of_range) - both exceptions are caught by
the caller in pal.cpp. -/
def stoiModel (s : List Nat) : Option Int :=
  let s1 := s.dropWhile isSpaceByte
  let signed : Bool × List Nat :=
    match s1 with
    | 45 :: r => (true, r)
    | 43 :: r => (false, r)
    | _ => (false, s1)
  let ds := signed.2.takeWhile isDigitByte
  if ds.isEmpty then none
  else
    let v : Nat := ds.foldl (fun a d => a * 10 + (d - 48)) 0
    let iv : Int := if signed.1 then -(v : Int) else (v : Int)
    if iv < -2147483648 ∨ iv > 2147483647 then none else some iv

/-- Bytes of the string literal "192.168.". -/
def pat192168 : List Nat := [49, 57, 50, 46, 49, 54, 56, 46]

/-- Bytes of the string literal "10.". -/
def pat10 : List Nat := [49, 48, 46]

/-- Bytes of the string literal "172.". -/
def pat172 : List Nat := [49, 55, 50, 46]

/-- Bytes of the string literal "127.0.0.1". -/
def localhostIp : List Nat := [49, 50, 55, 46, 48, 46, 48, 46, 49]

/-- The 172.16-31.* test of the third pass (pal.cpp:136-151): prefix
"172.", a dot strictly after index 4, and `stoi` of the text between
index 4 and that dot landing in [16, 31]. -/
def is172Private (ip : List Nat) : Bool :=
  beginsWith pat172 ip &&
  match (ip.drop 4).findIdx? (fun b => b == 46) with
  | none => false
  | some k =>
    if k = 0 then false
    else
      match stoiModel ((ip.drop 4).take k) with
      | none => false
      | some second => decide (16 ≤ second) && decide (second ≤ 31)

/-- `get_primary_local_ip` (pal.cpp:116-154) as a function of the
enumerated address list: empty list yields "127.0.0.1"; otherwise the
first 192.168.* entry, else the first 10.* entry, else the first
172.16-31.* entry, else the first entry. -/
def get_primary_local_ip : List (List Nat) → List Nat
  | [] => localhostIp
  | ip0 :: rest =>
    match (ip0 :: rest).find? (fun ip => beginsWith pat192168 ip) with
    | some ip => ip
    | none =>
      match (ip0 :: rest).find? (fun ip => beginsWith pat10 ip) with
      | some ip => ip
      | none =>
        match (ip0 :: rest).find? is172Private with
        | some ip => ip
        | none => ip0

/-- C7 counterexample: the claim, as stated, requires that a loopback
(127.*) address is never returned; but when the enumeration yields
only the address 127.0.0.5, the fall-through pass returns it (the
selection has no loopback filter - loopback is only skipped at
interface level inside get_local_ips). -/
theorem c7_loopback_returned_counterexample :
    get_primary_local_ip [[49, 50, 55, 46, 48, 46, 48, 46, 53]]
      = [49, 50, 55, 46, 48, 46, 48, 46, 53]
    ∧ beginsWith [49, 50, 55, 46] [49, 50, 55, 46, 48, 46, 48, 46, 53]
      = true := by
  constructor
  · rfl
  · decide

/-- C7 as amended: on a nonempty enumeration the result follows the
preference order 192.168.*, then 10.*, then 172.16-31.*, then the
first entry, and is always one of the enumerated addresses; on an
empty enumeration the literal 127.0.0.1 is returned. The selection
itself never filters loopback addresses. -/
theorem c7_primary_ip_preference_order (ip0 : List Nat)
    (rest : List (List Nat)) :
    (∀ ip, (ip0 :: rest).find? (fun s => beginsWith pat192168 s) = some ip →
      get_primary_local_ip (ip0 :: rest) = ip)
    ∧ ((ip0 :: rest).find? (fun s => beginsWith pat192168 s) = none →
      ∀ ip, (ip0 :: rest).find? (fun s => beginsWith pat10 s) = some ip →
      get_primary_local_ip (ip0 :: rest) = ip)
    ∧ ((ip0 :: rest).find? (fun s => beginsWith pat192168 s) = none →
      (ip0 :: rest).find? (fun s => beginsWith pat10 s) = none →
      ∀ ip, (ip0 :: rest).find? is172Private = some ip →
      get_primary_local_ip (ip0 :: rest) = ip)
    ∧ ((ip0 :: rest).find? (fun s => beginsWith pat192168 s) = none →
      (ip0 :: rest).find? (fun s => beginsWith pat10 s) = none →
      (ip0 :: rest).find? is172Private = none →
      get_primary_local_ip (ip0 :: rest) = ip0)
    ∧ get_primary_local_ip (ip0 :: rest) ∈ ip0 :: rest
    ∧ get_primary_local_ip [] = localhostIp := by
  refine ⟨?_, ?_, ?_, ?_, ?_, rfl⟩
  · intro ip h
    simp only [get_primary_local_ip, h]
  · intro h1 ip h
    simp only [get_primary_local_ip, h1, h]
  · intro h1 h2 ip h
    simp only [get_primary_local_ip, h1, h2, h]
  · intro h1 h2 h3
    simp only [get_primary_local_ip, h1, h2, h3]
  · rcases h1 : (ip0 :: rest).find? (fun s => beginsWith pat192168 s)
      with _ | ip
    · rcases h2 : (ip0 :: rest).find? (fun s => beginsWith pat10 s)
        with _ | ip
      · rcases h3 : (ip0 :: rest).find? is172Private with _ | ip
        · simp only [get_primary_local_ip, h1, h2, h3]
          exact List.mem_cons_self _ _
        · simp only [get_primary_local_ip, h1, h2, h3]
          exact List.mem_of_find?_eq_some h3
      · simp only [get_primary_local_ip, h1, h2]
        exact List.mem_of_find?_eq_some h2
    · simp only [get_primary_local_ip, h1]
      exact List.mem_of_find?_eq_some h1

/-- Witness for C7: a list holding 172.20.1.5 and 10.0.0.7 selects
10.0.0.7 (the 10.* pass precedes the 172.16-31.* pass). -/
theorem c7_primary_ip_preference_order_witness :
    get_primary_local_ip
      [[49, 55, 50, 46, 50, 48, 46, 49, 46, 53],
       [49, 48, 46, 48, 46, 48, 46, 55]]
      = [49, 48, 46, 48, 46, 48, 46, 55] :=
  ((c7_primary_ip_preference_order
      [49, 55, 50, 46, 50, 48, 46, 49, 46, 53]
      [[49, 48, 46, 48, 46, 48, 46, 55]]).2.1
    (by decide) [49, 48, 46, 48, 46, 48, 46, 55] (by decide))

/-! ## C8: work-queue enumeration in send_file

`ParallelTransfer::send_file` (parallel_transfer.cpp:94-138) derives
`total_chunks = (file_size + chunk_size - 1) / chunk_size` (uint64
arithmetic narrowed to uint32), loads the resume skip set, and pushes
one work item per chunk id not in the skip set, with
`offset = chunk_id * chunk_size` (uint64) and
`size = static_cast<uint32_t>(min(chunk_size, file_size - offset))`.
-/

/-- uint64 wraparound subtraction. -/
def sub64 (a b : Nat) : Nat := (a + 2 ^ 64 - b) % 2 ^ 64

/-- `total_chunks` computation in send_file (parallel_transfer.cpp:90-92):
uint64 ceiling division narrowed by `static_cast<uint32_t>`. -/
def totalChunksOf (file_size chunk_size : Nat) : Nat :=
  (((file_size + chunk_size - 1) % 2 ^ 64) / chunk_size) % 2 ^ 32

/-- The queue-filling loop of send_file (parallel_transfer.cpp:121-138):
every chunk id below `total_chunks` that is not in the skip set becomes
one work item, in increasing id order. -/
def send_file_queue (file_id file_size chunk_size : Nat)
    (skip : List Nat) : List ParallelWork :=
  (List.range (totalChunksOf file_size chunk_size)).filterMap
    (fun chunk_id =>
      if chunk_id ∈ skip then none
      else
        let offset := (chunk_id * chunk_size) % 2 ^ 64
        some { file_id := file_id, chunk_id := chunk_id, offset := offset,
               size := (min chunk_size (sub64 file_size offset)) % 2 ^ 32 })

theorem filterMap_skip_eq_map_filter {α β : Type} (l : List α)
    (p : α → Prop) [DecidablePred p] (f : α → β) :
    (l.filterMap (fun a => if p a then none else some (f a)))
      = (l.filter (fun a => decide (¬ p a))).map f := by
  induction l with
  | nil => rfl
  | cons a t ih =>
    by_cases h : p a
    · simp [List.filterMap_cons, List.filter_cons, h, ih]
    · simp [List.filterMap_cons, List.filter_cons, h, ih]

/-- C8: under no-overflow side conditions (positive chunk size below
2^32, ceiling division neither wrapping in uint64 nor truncated by the
uint32 narrowing), the work queue holds exactly the chunk ids below
`total_chunks` that are not in the skip set, in increasing order, each
with `offset = chunk_id * chunk_size` and
`size = min(chunk_size, file_size - offset)`; no skipped chunk is ever
queued. -/
theorem c8_send_file_queue_exact (file_id file_size chunk_size : Nat)
    (skip : List Nat) (h1 : 0 < chunk_size) (h2 : chunk_size < 2 ^ 32)
    (h3 : file_size + chunk_size - 1 < 2 ^ 64)
    (h4 : (file_size + chunk_size - 1) / chunk_size < 2 ^ 32) :
    send_file_queue file_id file_size chunk_size skip
      = ((List.range ((file_size + chunk_size - 1) / chunk_size)).filter
          (fun i => decide (i ∉ skip))).map
          (fun i => { file_id := file_id, chunk_id := i,
                      offset := i * chunk_size,
                      size := min chunk_size (file_size - i * chunk_size) })
    ∧ ∀ w ∈ send_file_queue file_id file_size chunk_size skip,
        w.chunk_id ∉ skip := by
  have htot : totalChunksOf file_size chunk_size
      = (file_size + chunk_size - 1) / chunk_size := by
    unfold totalChunksOf
    rw [Nat.mod_eq_of_lt h3, Nat.mod_eq_of_lt h4]
  have hmul : ∀ i, i < (file_size + chunk_size - 1) / chunk_size →
      i * chunk_size < file_size := by
    intro i hi
    have hle : i + 1 ≤ (file_size + chunk_size - 1) / chunk_size := hi
    have h5 : (i + 1) * chunk_size ≤ file_size + chunk_size - 1 :=
      (Nat.le_div_iff_mul_le h1).mp hle
    have h6 : i * chunk_size + chunk_size = (i + 1) * chunk_size := by ring
    have h7 : i * chunk_size + chunk_size ≤ file_size + chunk_size - 1 := by
      rw [h6]; exact h5
    omega
  have heq : send_file_queue file_id file_size chunk_size skip
      = ((List.range ((file_size + chunk_size - 1) / chunk_size)).filter
          (fun i => decide (i ∉ skip))).map
          (fun i => { file_id := file_id, chunk_id := i,
                      offset := i * chunk_size,
                      size := min chunk_size (file_size - i * chunk_size) }) := by
    unfold send_file_queue
    rw [htot, filterMap_skip_eq_map_filter _ (fun i => i ∈ skip)]
    apply List.map_congr_left
    intro i hi
    have hir : i ∈ List.range ((file_size + chunk_size - 1) / chunk_size) :=
      List.mem_of_mem_filter hi
    have hilt := List.mem_range.mp hir
    have hoff : i * chunk_size < file_size := hmul i hilt
    have hfs : file_size < 2 ^ 64 := by omega
    have hoff64 : (i * chunk_size) % 2 ^ 64 = i * chunk_size :=
      Nat.mod_eq_of_lt (by omega)
    have hsub : sub64 file_size (i * chunk_size)
        = file_size - i * chunk_size := by
      unfold sub64
      have : file_size + 2 ^ 64 - i * chunk_size
          = 2 ^ 64 + (file_size - i * chunk_size) := by omega
      rw [this, Nat.add_mod_left]
      exact Nat.mod_eq_of_lt (by omega)
    have hmin : (min chunk_size (file_size - i * chunk_size)) % 2 ^ 32
        = min chunk_size (file_size - i * chunk_size) := by
      apply Nat.mod_eq_of_lt
      calc min chunk_size (file_size - i * chunk_size) ≤ chunk_size :=
        Nat.min_le_left _ _
      _ < 2 ^ 32 := h2
    simp only [hoff64, hsub, hmin]
  refine ⟨heq, ?_⟩
  intro w hw
  rw [heq] at hw
  rcases List.mem_map.mp hw with ⟨i, hi, rfl⟩
  have := List.of_mem_filter hi
  simpa using this

/-- Witness for C8: the resume scenario of the spec - a 10-chunk file
with received chunks {0,1,2,5,7} queues exactly chunks {3,4,6,8,9}.
File of 10239 bytes with chunk size 1024 gives 10 chunks, the last one
of 1023 bytes. -/
theorem c8_send_file_queue_exact_witness :
    send_file_queue 0 10239 1024 [0, 1, 2, 5, 7]
      = [{ file_id := 0, chunk_id := 3, offset := 3072, size := 1024 },
         { file_id := 0, chunk_id := 4, offset := 4096, size := 1024 },
         { file_id := 0, chunk_id := 6, offset := 6144, size := 1024 },
         { file_id := 0, chunk_id := 8, offset := 8192, size := 1024 },
         { file_id := 0, chunk_id := 9, offset := 9216, size := 1023 }] := by
  rw [(c8_send_file_queue_exact 0 10239 1024 [0, 1, 2, 5, 7]
    (by decide) (by decide) (by norm_num) (by norm_num)).1]
  decide

/-! ## C9: ChunkTracker invariants

`ChunkTracker` (parallel_transfer.hpp:33-98) keeps a byte-array bitmap
of length `(total + 7) / 8`, a received counter, and the chunk total.
`mark_received` bounds-checks the id, then sets bit `id % 8` of byte
`id / 8` and increments the counter only when the bit was clear.
`is_complete` is `m_received >= m_total`. The tracker mutates through
`mark_received` calls on a freshly constructed tracker
(`receive_file`, parallel_transfer.cpp:172-177, and the receiver
workers).
-/

/-- `ChunkTracker` state (parallel_transfer.hpp:94-97); `m_chunks` is
the byte vector. -/
structure ChunkTracker where
  m_total : Nat
  m_received : Nat
  m_chunks : List Nat
deriving Repr, DecidableEq

/-- The constructor (parallel_transfer.hpp:35-39). -/
def ChunkTracker.init (total_chunks : Nat) : ChunkTracker :=
  { m_total := total_chunks, m_received := 0,
    m_chunks := List.replicate ((total_chunks + 7) / 8) 0 }

/-- `ChunkTracker::is_received` (parallel_transfer.hpp:51-56). -/
def ChunkTracker.is_received (t : ChunkTracker) (chunk_id : Nat) : Bool :=
  if chunk_id ≥ t.m_total then false
  else (t.m_chunks.getD (chunk_id / 8) 0) &&& (1 <<< (chunk_id % 8)) != 0

/-- `ChunkTracker::mark_received` (parallel_transfer.hpp:41-49). -/
def ChunkTracker.mark_received (t : ChunkTracker) (chunk_id : Nat) :
    ChunkTracker :=
  if chunk_id ≥ t.m_total then t
  else
    let byte_idx := chunk_id / 8
    let bit := 1 <<< (chunk_id % 8)
    if (t.m_chunks.getD byte_idx 0) &&& bit = 0 then
      { t with
        m_chunks := t.m_chunks.set byte_idx
          ((t.m_chunks.getD byte_idx 0) ||| bit),
        m_received := t.m_received + 1 }
    else t

/-- `ChunkTracker::is_complete` (parallel_transfer.hpp:80). -/
def ChunkTracker.is_complete (t : ChunkTracker) : Bool :=
  t.m_received ≥ t.m_total

/-- Number of set bits among the first `m_total` bits of the bitmap. -/
def ChunkTracker.bitCount (t : ChunkTracker) : Nat :=
  ((Finset.range t.m_total).filter (fun i => t.is_received i = true)).card

/-- Well-formedness: the bitmap has the size the constructor gives it
and the counter agrees with the bitmap population count. -/
def ChunkTracker.wf (t : ChunkTracker) : Prop :=
  t.m_chunks.length = (t.m_total + 7) / 8 ∧ t.m_received = t.bitCount

/-- A sequence of `mark_received` calls. -/
def runMarks (ids : List Nat) (t : ChunkTracker) : ChunkTracker :=
  ids.foldl (fun s i => s.mark_received i) t

theorem land_one_shiftLeft_ne_zero (x k : Nat) :
    (x &&& (1 <<< k) ≠ 0) ↔ x.testBit k = true := by
  rw [Nat.one_shiftLeft, Nat.and_two_pow]
  rcases h : x.testBit k with _ | _
  · simp [h]
  · simp [h]

theorem mark_received_total (t : ChunkTracker) (id : Nat) :
    (t.mark_received id).m_total = t.m_total := by
  unfold ChunkTracker.mark_received
  by_cases h : id ≥ t.m_total
  · rw [if_pos h]
  · rw [if_neg h]
    by_cases h2 : (t.m_chunks.getD (id / 8) 0) &&& (1 <<< (id % 8)) = 0
    · rw [if_pos h2]
    · rw [if_neg h2]

theorem mark_received_length (t : ChunkTracker) (id : Nat) :
    (t.mark_received id).m_chunks.length = t.m_chunks.length := by
  unfold ChunkTracker.mark_received
  by_cases h : id ≥ t.m_total
  · rw [if_pos h]
  · rw [if_neg h]
    by_cases h2 : (t.m_chunks.getD (id / 8) 0) &&& (1 <<< (id % 8)) = 0
    · rw [if_pos h2]; exact List.length_set t.m_chunks _ _
    · rw [if_neg h2]

theorem is_received_true_iff (t : ChunkTracker) (j : Nat) :
    (t.is_received j = true) ↔
      (j < t.m_total
        ∧ (t.m_chunks.getD (j / 8) 0).testBit (j % 8) = true) := by
  unfold ChunkTracker.is_received
  by_cases h : j ≥ t.m_total
  · simp only [if_pos h]
    constructor
    · intro hc; exact absurd hc (by simp)
    · intro hc; omega
  · simp only [if_neg h, bne_iff_ne, ne_eq]
    constructor
    · intro hb; exact ⟨by omega, (land_one_shiftLeft_ne_zero _ _).mp hb⟩
    · intro hb; exact (land_one_shiftLeft_ne_zero _ _).mpr hb.2

theorem mark_is_received_iff (t : ChunkTracker)
    (hlen : t.m_chunks.length = (t.m_total + 7) / 8) (id j : Nat) :
    ((t.mark_received id).is_received j = true)
      ↔ (t.is_received j = true ∨ (j = id ∧ id < t.m_total)) := by
  by_cases h1 : id ≥ t.m_total
  · have hm : t.mark_received id = t := by
      unfold ChunkTracker.mark_received; rw [if_pos h1]
    rw [hm]
    constructor
    · exact Or.inl
    · rintro (h | ⟨rfl, h2⟩)
      · exact h
      · omega
  · by_cases h2 : (t.m_chunks.getD (id / 8) 0) &&& (1 <<< (id % 8)) = 0
    · have hm : t.mark_received id
          = { t with
              m_chunks := t.m_chunks.set (id / 8)
                ((t.m_chunks.getD (id / 8) 0) ||| (1 <<< (id % 8))),
              m_received := t.m_received + 1 } := by
        unfold ChunkTracker.mark_received
        rw [if_neg h1, if_pos h2]
      have hidx : id / 8 < t.m_chunks.length := by
        rw [hlen]; omega
      rw [hm, is_received_true_iff, is_received_true_iff]
      simp only []
      by_cases hb : j / 8 = id / 8
      · have hget : ((t.m_chunks.set (id / 8)
            ((t.m_chunks.getD (id / 8) 0) ||| (1 <<< (id % 8)))).getD
              (j / 8) 0)
            = (t.m_chunks.getD (id / 8) 0) ||| (1 <<< (id % 8)) := by
          rw [hb, List.getD_eq_getElem?_getD, List.getElem?_set_self hidx]
          rfl
        rw [hget, Nat.one_shiftLeft, hb]
        simp only [Nat.testBit_or, Nat.testBit_two_pow, Bool.or_eq_true,
          decide_eq_true_eq]
        constructor
        · rintro ⟨hj, hbit | hbit⟩
          · exact Or.inl ⟨hj, hbit⟩
          · exact Or.inr ⟨by omega, by omega⟩
        · rintro (⟨hj, hbit⟩ | ⟨rfl, hid⟩)
          · exact ⟨hj, Or.inl hbit⟩
          · exact ⟨hid, Or.inr rfl⟩
      · have hget : ((t.m_chunks.set (id / 8)
            ((t.m_chunks.getD (id / 8) 0) ||| (1 <<< (id % 8)))).getD
              (j / 8) 0)
            = t.m_chunks.getD (j / 8) 0 := by
          rw [List.getD_eq_getElem?_getD,
            List.getElem?_set_ne (fun he => hb he.symm),
            List.getD_eq_getElem?_getD]
        rw [hget]
        constructor
        · exact Or.inl
        · rintro (h | ⟨rfl, hid⟩)
          · exact h
          · exact absurd rfl hb
    · have hm : t.mark_received id = t := by
        unfold ChunkTracker.mark_received
        rw [if_neg h1, if_neg h2]
      rw [hm]
      have hrecv : t.is_received id = true := by
        rw [is_received_true_iff]
        exact ⟨by omega, (land_one_shiftLeft_ne_zero _ _).mp h2⟩
      constructor
      · exact Or.inl
      · rintro (h | ⟨rfl, hid⟩)
        · exact h
        · exact hrecv

theorem chunkTracker_wf_init (total : Nat) : (ChunkTracker.init total).wf := by
  constructor
  · simp [ChunkTracker.init]
  · have hfalse : ∀ j, (ChunkTracker.init total).is_received j = false := by
      intro j
      rw [Bool.eq_false_iff, ne_eq, is_received_true_iff]
      rintro ⟨hj, hbit⟩
      have hzero : (List.replicate ((total + 7) / 8) 0).getD (j / 8) 0
          = 0 := by
        rw [List.getD_eq_getElem?_getD, List.getElem?_replicate]
        by_cases h : j / 8 < (total + 7) / 8
        · rw [if_pos h]; rfl
        · rw [if_neg h]; rfl
      rw [show (ChunkTracker.init total).m_chunks
          = List.replicate ((total + 7) / 8) 0 from rfl, hzero] at hbit
      simp at hbit
    show (0 : Nat) = (ChunkTracker.init total).bitCount
    unfold ChunkTracker.bitCount
    rw [Finset.filter_false_of_mem (by
        intro i _
        rw [hfalse i]
        simp),
      Finset.card_empty]

theorem mark_received_recv_mono (t : ChunkTracker) (id : Nat) :
    t.m_received ≤ (t.mark_received id).m_received := by
  unfold ChunkTracker.mark_received
  by_cases h1 : id ≥ t.m_total
  · rw [if_pos h1]
  · rw [if_neg h1]
    by_cases h2 : (t.m_chunks.getD (id / 8) 0) &&& (1 <<< (id % 8)) = 0
    · rw [if_pos h2]; exact Nat.le_succ _
    · rw [if_neg h2]

theorem chunkTracker_wf_mark (t : ChunkTracker) (h : t.wf) (id : Nat) :
    (t.mark_received id).wf := by
  obtain ⟨hlen, hcount⟩ := h
  constructor
  · rw [mark_received_length, mark_received_total]; exact hlen
  · by_cases h1 : id ≥ t.m_total
    · have hm : t.mark_received id = t := by
        unfold ChunkTracker.mark_received; rw [if_pos h1]
      rw [hm]; exact hcount
    · by_cases h2 : (t.m_chunks.getD (id / 8) 0) &&& (1 <<< (id % 8)) = 0
      · have hnotold : ¬(t.is_received id = true) := by
          intro hr
          exact (land_one_shiftLeft_ne_zero _ _).mpr
            (((is_received_true_iff t id).mp hr).2) h2
        have hfilter : (Finset.range (t.mark_received id).m_total).filter
            (fun i => (t.mark_received id).is_received i = true)
            = insert id ((Finset.range t.m_total).filter
              (fun i => t.is_received i = true)) := by
          ext i
          rw [mark_received_total]
          simp only [Finset.mem_filter, Finset.mem_range, Finset.mem_insert]
          rw [mark_is_received_iff t hlen id i]
          constructor
          · rintro ⟨hi, hold | ⟨rfl, hid⟩⟩
            · exact Or.inr ⟨hi, hold⟩
            · exact Or.inl rfl
          · rintro (rfl | ⟨hi, hold⟩)
            · exact ⟨by omega, Or.inr ⟨rfl, by omega⟩⟩
            · exact ⟨hi, Or.inl hold⟩
        have hnew : (t.mark_received id).m_received = t.m_received + 1 := by
          unfold ChunkTracker.mark_received
          rw [if_neg h1, if_pos h2]
        rw [ChunkTracker.bitCount, hfilter, hnew,
          Finset.card_insert_of_not_mem (by
            rw [Finset.mem_filter]
            rintro ⟨hmem, hold⟩
            exact hnotold hold),
          hcount]
        rfl
      · have hm : t.mark_received id = t := by
          unfold ChunkTracker.mark_received; rw [if_neg h1, if_neg h2]
        rw [hm]; exact hcount

theorem runMarks_total (ids : List Nat) :
    ∀ t : ChunkTracker, (runMarks ids t).m_total = t.m_total := by
  induction ids with
  | nil => intro t; rfl
  | cons i ids ih =>
    intro t
    show (runMarks ids (t.mark_received i)).m_total = t.m_total
    rw [ih, mark_received_total]

theorem runMarks_wf (ids : List Nat) :
    ∀ t : ChunkTracker, t.wf → (runMarks ids t).wf := by
  induction ids with
  | nil => intro t h; exact h
  | cons i ids ih =>
    intro t h
    exact ih (t.mark_received i) (chunkTracker_wf_mark t h i)

theorem bitCount_le_total (t : ChunkTracker) : t.bitCount ≤ t.m_total :=
  le_trans (Finset.card_filter_le _ _) (le_of_eq (Finset.card_range _))

/-- C9: along every sequence of mark_received operations on a freshly
constructed tracker, the tracker invariants hold: a further
mark_received never clears a set bit and never decreases the received
counter, the counter always equals the number of set bits among the
first total_chunks bits of the bitmap, and is_complete holds exactly
when the counter equals total_chunks. -/
theorem c9_chunk_tracker_invariants (total : Nat) (ids : List Nat) :
    (runMarks ids (ChunkTracker.init total)).m_total = total
    ∧ (runMarks ids (ChunkTracker.init total)).m_received
        = (runMarks ids (ChunkTracker.init total)).bitCount
    ∧ (∀ id j,
        (runMarks ids (ChunkTracker.init total)).is_received j = true →
        ((runMarks ids (ChunkTracker.init total)).mark_received
          id).is_received j = true)
    ∧ (∀ id, (runMarks ids (ChunkTracker.init total)).m_received
        ≤ ((runMarks ids (ChunkTracker.init total)).mark_received
            id).m_received)
    ∧ ((runMarks ids (ChunkTracker.init total)).is_complete = true
        ↔ (runMarks ids (ChunkTracker.init total)).m_received = total) := by
  have hwf : (runMarks ids (ChunkTracker.init total)).wf :=
    runMarks_wf ids (ChunkTracker.init total) (chunkTracker_wf_init total)
  have htotal : (runMarks ids (ChunkTracker.init total)).m_total = total :=
    runMarks_total ids (ChunkTracker.init total)
  have hle : (runMarks ids (ChunkTracker.init total)).m_received ≤ total := by
    have h1 := bitCount_le_total (runMarks ids (ChunkTracker.init total))
    rw [htotal] at h1
    rw [hwf.2]
    exact h1
  refine ⟨htotal, hwf.2, ?_, ?_, ?_⟩
  · intro id j hj
    rw [mark_is_received_iff _ hwf.1 id j]
    exact Or.inl hj
  · intro id
    exact mark_received_recv_mono _ id
  · unfold ChunkTracker.is_complete
    rw [htotal]
    simp only [ge_iff_le, decide_eq_true_eq]
    omega

/-- Witness for C9: a 3-chunk tracker after marking chunks 0 and 2 has
two set bits, is not complete, and keeps chunk 0 marked after marking
chunk 1. -/
theorem c9_chunk_tracker_invariants_witness :
    (runMarks [0, 2] (ChunkTracker.init 3)).is_received 0 = true
    ∧ ((runMarks [0, 2] (ChunkTracker.init 3)).mark_received
        1).is_received 0 = true
    ∧ ((runMarks [0, 2] (ChunkTracker.init 3)).is_complete = true
        ↔ (runMarks [0, 2] (ChunkTracker.init 3)).m_received = 3) :=
  ⟨by decide,
   (c9_chunk_tracker_invariants 3 [0, 2]).2.2.1 1 0 (by decide),
   (c9_chunk_tracker_invariants 3 [0, 2]).2.2.2.2⟩

/-! ## C3: resume state persistence

`ResumeState` (resume_manager.hpp:22-43) is serialized big-endian by
`serialize_resume_state` (resume_manager.hpp:92-132) and parsed back by
`deserialize_resume_state` (resume_manager.hpp:137-193).
`ResumeManager::save` (resume_manager.cpp:37-59) overwrites the
timestamp field with the current wall-clock time before serializing;
`ResumeManager::load` (resume_manager.cpp:61-86) applies the
deserializer to the stored bytes. The byte stream position is modelled
by passing the remaining suffix of the data.
-/

/-- `ResumeState` (resume_manager.hpp:26-34); strings as byte lists,
`file_size` and `timestamp` are `uint64_t`, the other numeric fields
`uint32_t`. -/
structure ResumeState where
  file_name : List Nat
  file_size : Nat
  file_id : Nat
  chunk_size : Nat
  total_chunks : Nat
  received_chunks : List Nat
  sender_id : List Nat
  session_token : List Nat
  timestamp : Nat
deriving Repr, DecidableEq

/-- `ResumeState::MAGIC` = 0x54504C52 (resume_manager.hpp:23). -/
def RESUME_MAGIC : Nat := 0x54504C52

/-- `ResumeState::VERSION` (resume_manager.hpp:24). -/
def RESUME_VERSION : Nat := 1

/-- The default-constructed `ResumeState{}`. -/
def emptyResumeState : ResumeState :=
  { file_name := [], file_size := 0, file_id := 0, chunk_size := 0,
    total_chunks := 0, received_chunks := [], sender_id := [],
    session_token := [], timestamp := 0 }

/-- `write_u32` (resume_manager.hpp:95-100): four big-endian bytes,
each narrowed to `uint8_t`. -/
def write_u32 (v : Nat) : List Nat :=
  [v >>> 24 % 256, v >>> 16 % 256, v >>> 8 % 256, v % 256]

/-- `write_u64` (resume_manager.hpp:102-106): eight big-endian bytes. -/
def write_u64 (v : Nat) : List Nat :=
  [v >>> 56 % 256, v >>> 48 % 256, v >>> 40 % 256, v >>> 32 % 256,
   v >>> 24 % 256, v >>> 16 % 256, v >>> 8 % 256, v % 256]

/-- `write_str` (resume_manager.hpp:108-111): the length as a `uint32_t`
cast, then the raw bytes. -/
def write_str (s : List Nat) : List Nat :=
  write_u32 (s.length % 2 ^ 32) ++ s

/-- `serialize_resume_state` (resume_manager.hpp:92-132). -/
def serialize_resume_state (st : ResumeState) : List Nat :=
  write_u32 RESUME_MAGIC ++ write_u32 RESUME_VERSION
    ++ write_str st.file_name
    ++ write_u64 st.file_size
    ++ write_u32 st.file_id
    ++ write_u32 st.chunk_size
    ++ write_u32 st.total_chunks
    ++ write_u32 (st.received_chunks.length % 2 ^ 32)
    ++ (st.received_chunks.map write_u32).flatten
    ++ write_str st.sender_id
    ++ write_str st.session_token
    ++ write_u64 st.timestamp

/-- `read_u32` (resume_manager.hpp:141-147): when at least four bytes
remain, combine them big-endian and advance; otherwise yield 0 without
advancing. -/
def read_u32 (d : List Nat) : Nat × List Nat :=
  match d with
  | b0 :: b1 :: b2 :: b3 :: rest =>
    ((b0 <<< 24) ||| (b1 <<< 16) ||| (b2 <<< 8) ||| b3, rest)
  | _ => (0, d)

/-- `read_u64` (resume_manager.hpp:149-157): eight bytes folded with
`v = (v << 8) | byte`; short data yields 0 without advancing. -/
def read_u64 (d : List Nat) : Nat × List Nat :=
  match d with
  | b0 :: b1 :: b2 :: b3 :: b4 :: b5 :: b6 :: b7 :: rest =>
    ([b0, b1, b2, b3, b4, b5, b6, b7].foldl
      (fun v b => (v <<< 8) ||| b) 0, rest)
  | _ => (0, d)

/-- `read_str` (resume_manager.hpp:159-165): length then bytes; when
fewer than `len` bytes remain, yield the empty string without
advancing past the length word. -/
def read_str (d : List Nat) : List Nat × List Nat :=
  let p := read_u32 d
  if p.2.length < p.1 then ([], p.2)
  else (p.2.take p.1, p.2.drop p.1)

/-- The `received_chunks` loop of the deserializer
(resume_manager.hpp:182-186). -/
def read_chunks (count : Nat) (d : List Nat) : List Nat × List Nat :=
  match count with
  | 0 => ([], d)
  | n + 1 =>
    let p := read_u32 d
    let q := read_chunks n p.2
    (p.1 :: q.1, q.2)

/-- `deserialize_resume_state` (resume_manager.hpp:137-193). -/
def deserialize_resume_state (data : List Nat) : ResumeState :=
  let pm := read_u32 data
  let pv := read_u32 pm.2
  if pm.1 ≠ RESUME_MAGIC ∨ pv.1 ≠ RESUME_VERSION then emptyResumeState
  else
    let pname := read_str pv.2
    let psize := read_u64 pname.2
    let pfid := read_u32 psize.2
    let pcs := read_u32 pfid.2
    let ptc := read_u32 pcs.2
    let pcount := read_u32 ptc.2
    let pchunks := read_chunks pcount.1 pcount.2
    let psender := read_str pchunks.2
    let ptoken := read_str psender.2
    let pts := read_u64 ptoken.2
    { file_name := pname.1, file_size := psize.1, file_id := pfid.1,
      chunk_size := pcs.1, total_chunks := ptc.1,
      received_chunks := pchunks.1, sender_id := psender.1,
      session_token := ptoken.1, timestamp := pts.1 }

/-- `ResumeManager::save` (resume_manager.cpp:37-59) up to the file
system: the bytes written to disk are the serialization of the state
with its timestamp replaced by the current time (seconds since epoch,
stored in the `uint64_t` field). -/
def ResumeManager_save_bytes (st : ResumeState) (now : Nat) : List Nat :=
  serialize_resume_state { st with timestamp := now % 2 ^ 64 }

/-- `ResumeManager::load` (resume_manager.cpp:61-86) up to the file
system: the stored bytes are deserialized. -/
def ResumeManager_load_bytes (data : List Nat) : ResumeState :=
  deserialize_resume_state data

theorem read_u32_write_u32 (v : Nat) (hv : v < 2 ^ 32) (rest : List Nat) :
    read_u32 (write_u32 v ++ rest) = (v, rest) := by
  show (((v >>> 24 % 256) <<< 24) ||| ((v >>> 16 % 256) <<< 16)
      ||| ((v >>> 8 % 256) <<< 8) ||| (v % 256), rest) = (v, rest)
  have h256 : (256 : Nat) = 2 ^ 8 := by norm_num
  have ha : v >>> 24 % 256 = v >>> 24 := by
    rw [h256]
    exact Nat.mod_eq_of_lt (shiftRight_lt_of_lt v hv)
  have hb : v >>> 16 % 256 = (v % 2 ^ 24) >>> 16 := by
    rw [h256]
    exact (mod_two_pow_shiftRight v 8 16).symm
  have hc : v >>> 8 % 256 = (v % 2 ^ 16) >>> 8 := by
    rw [h256]
    exact (mod_two_pow_shiftRight v 8 8).symm
  have hd : v % 256 = (v % 2 ^ 16) % 2 ^ 8 := by
    rw [h256]
    exact (Nat.mod_mod_of_dvd v (by norm_num)).symm
  rw [ha, hb, hc, hd]
  rw [Nat.lor_assoc, Nat.lor_assoc]
  rw [shiftRight_shiftLeft_or_mod (v % 2 ^ 16) 8]
  rw [show v % 2 ^ 16 = (v % 2 ^ 24) % 2 ^ 16 from
    (Nat.mod_mod_of_dvd v (by norm_num)).symm]
  rw [shiftRight_shiftLeft_or_mod (v % 2 ^ 24) 16]
  rw [shiftRight_shiftLeft_or_mod v 24]

theorem read_u64_write_u64 (v : Nat) (hv : v < 2 ^ 64) (rest : List Nat) :
    read_u64 (write_u64 v ++ rest) = (v, rest) := by
  have h256 : (256 : Nat) = 2 ^ 8 := by norm_num
  have step8 : ∀ k j : Nat, k + 8 = j →
      ((v >>> j) <<< 8) ||| (v >>> k % 256) = v >>> k := by
    intro k j h
    subst h
    rw [h256, Nat.shiftRight_add v k 8]
    exact shiftRight_shiftLeft_or_mod (v >>> k) 8
  show ((((((((((((((((0 <<< 8) ||| (v >>> 56 % 256)) <<< 8)
      ||| (v >>> 48 % 256)) <<< 8) ||| (v >>> 40 % 256)) <<< 8)
      ||| (v >>> 32 % 256)) <<< 8) ||| (v >>> 24 % 256)) <<< 8)
      ||| (v >>> 16 % 256)) <<< 8) ||| (v >>> 8 % 256)) <<< 8)
      ||| (v % 256), rest) = (v, rest)
  have h0 : (0 : Nat) <<< 8 ||| (v >>> 56 % 256) = v >>> 56 := by
    rw [Nat.zero_shiftLeft, h256]
    have hlt : v >>> 56 < 2 ^ 8 := shiftRight_lt_of_lt v hv
    rw [Nat.mod_eq_of_lt hlt]
    exact Nat.zero_or _
  rw [h0, step8 48 56 (by norm_num), step8 40 48 (by norm_num),
    step8 32 40 (by norm_num), step8 24 32 (by norm_num),
    step8 16 24 (by norm_num), step8 8 16 (by norm_num),
    show v % 256 = v >>> 0 % 256 by rw [Nat.shiftRight_zero],
    step8 0 8 (by norm_num), Nat.shiftRight_zero]

theorem read_str_write_str (s : List Nat) (hs : s.length < 2 ^ 32)
    (rest : List Nat) :
    read_str (write_str s ++ rest) = (s, rest) := by
  unfold write_str read_str
  rw [List.append_assoc,
    read_u32_write_u32 (s.length % 2 ^ 32) (Nat.mod_lt _ (by norm_num)) _,
    Nat.mod_eq_of_lt hs]
  have hnot : ¬ ((s ++ rest).length < s.length) := by
    rw [List.length_append]; omega
  simp only [hnot, if_false]
  rw [List.take_left, List.drop_left]

theorem read_chunks_round (l : List Nat) (hl : ∀ c ∈ l, c < 2 ^ 32) :
    ∀ rest : List Nat,
      read_chunks l.length ((l.map write_u32).flatten ++ rest) = (l, rest) := by
  induction l with
  | nil => intro rest; rfl
  | cons c t ih =>
    intro rest
    show read_chunks (t.length + 1)
      ((write_u32 c ++ (t.map write_u32).flatten) ++ rest) = (c :: t, rest)
    unfold read_chunks
    rw [List.append_assoc,
      read_u32_write_u32 c (hl c (List.mem_cons_self c t)) _]
    have := ih (fun x hx => hl x (List.mem_cons_of_mem c hx)) rest
    simp only [this]

/-- Bounds under which every field of a `ResumeState` fits the integer
width the serializer stores it with. -/
def ResumeState.inBounds (st : ResumeState) : Prop :=
  st.file_name.length < 2 ^ 32
  ∧ st.file_size < 2 ^ 64
  ∧ st.file_id < 2 ^ 32
  ∧ st.chunk_size < 2 ^ 32
  ∧ st.total_chunks < 2 ^ 32
  ∧ st.received_chunks.length < 2 ^ 32
  ∧ (∀ c ∈ st.received_chunks, c < 2 ^ 32)
  ∧ st.sender_id.length < 2 ^ 32
  ∧ st.session_token.length < 2 ^ 32
  ∧ st.timestamp < 2 ^ 64

theorem deserialize_serialize (st : ResumeState) (h : st.inBounds) :
    deserialize_resume_state (serialize_resume_state st) = st := by
  obtain ⟨h1, h2, h3, h4, h5, h6, h7, h8, h9, h10⟩ := h
  unfold serialize_resume_state deserialize_resume_state
  simp only [List.append_assoc]
  rw [read_u32_write_u32 RESUME_MAGIC (by norm_num [RESUME_MAGIC]) _]
  rw [read_u32_write_u32 RESUME_VERSION (by norm_num [RESUME_VERSION]) _]
  simp only []
  rw [if_neg (by push_neg; exact ⟨rfl, rfl⟩)]
  rw [show write_str st.file_name ++ (write_u64 st.file_size
      ++ (write_u32 st.file_id ++ (write_u32 st.chunk_size
      ++ (write_u32 st.total_chunks
      ++ (write_u32 (st.received_chunks.length % 2 ^ 32)
      ++ ((st.received_chunks.map write_u32).flatten
      ++ (write_str st.sender_id ++ (write_str st.session_token
      ++ write_u64 st.timestamp))))))))
    = write_str st.file_name ++ (write_u64 st.file_size
      ++ (write_u32 st.file_id ++ (write_u32 st.chunk_size
      ++ (write_u32 st.total_chunks
      ++ (write_u32 (st.received_chunks.length % 2 ^ 32)
      ++ ((st.received_chunks.map write_u32).flatten
      ++ (write_str st.sender_id ++ (write_str st.session_token
      ++ write_u64 st.timestamp)))))))) from rfl]
  rw [read_str_write_str st.file_name h1 _]
  simp only []
  rw [read_u64_write_u64 st.file_size h2 _]
  simp only []
  rw [read_u32_write_u32 st.file_id h3 _]
  simp only []
  rw [read_u32_write_u32 st.chunk_size h4 _]
  simp only []
  rw [read_u32_write_u32 st.total_chunks h5 _]
  simp only []
  rw [read_u32_write_u32 (st.received_chunks.length % 2 ^ 32)
    (Nat.mod_lt _ (by norm_num)) _]
  simp only []
  rw [Nat.mod_eq_of_lt h6]
  rw [read_chunks_round st.received_chunks h7 _]
  simp only []
  rw [read_str_write_str st.sender_id h8 _]
  simp only []
  rw [read_str_write_str st.session_token h9 _]
  simp only []
  rw [show write_u64 st.timestamp = write_u64 st.timestamp ++ [] from
    (List.append_nil _).symm]
  rw [read_u64_write_u64 st.timestamp h10 []]

/-- C3 counterexample: save-then-load does not return the state
exactly, because `ResumeManager::save` (resume_manager.cpp:41-43)
overwrites the timestamp field with the current time before
serializing. A state persisted with timestamp 0 at wall-clock second 1
loads back with timestamp 1. -/
theorem c3_save_load_counterexample :
    ResumeManager_load_bytes (ResumeManager_save_bytes
      { file_name := [97], file_size := 1, file_id := 0, chunk_size := 1,
        total_chunks := 1, received_chunks := [0], sender_id := [115],
        session_token := [], timestamp := 0 } 1)
    ≠ { file_name := [97], file_size := 1, file_id := 0, chunk_size := 1,
        total_chunks := 1, received_chunks := [0], sender_id := [115],
        session_token := [], timestamp := 0 } := by
  decide

/-- C3 as amended: for every in-bounds resume state, save-then-load
returns the state with every field intact - the full received_chunks
sequence included - except the timestamp, which the save path replaces
with the save time; the serializer/deserializer pair itself round-trips
exactly on every field. -/
theorem c3_resume_roundtrip (st : ResumeState) (now : Nat)
    (h : st.inBounds) :
    ResumeManager_load_bytes (ResumeManager_save_bytes st now)
      = { st with timestamp := now % 2 ^ 64 }
    ∧ deserialize_resume_state (serialize_resume_state st) = st := by
  constructor
  · unfold ResumeManager_load_bytes ResumeManager_save_bytes
    apply deserialize_serialize
    obtain ⟨h1, h2, h3, h4, h5, h6, h7, h8, h9, h10⟩ := h
    exact ⟨h1, h2, h3, h4, h5, h6, h7, h8, h9,
      Nat.mod_lt _ (by norm_num)⟩
  · exact deserialize_serialize st h

/-- Witness for C3: a concrete one-chunk state saved at second 5 loads
back with timestamp 5 and all other fields identical. -/
theorem c3_resume_roundtrip_witness :
    ResumeManager_load_bytes (ResumeManager_save_bytes
      { file_name := [97], file_size := 1, file_id := 0, chunk_size := 1,
        total_chunks := 1, received_chunks := [0], sender_id := [115],
        session_token := [], timestamp := 0 } 5)
      = { file_name := [97], file_size := 1, file_id := 0, chunk_size := 1,
          total_chunks := 1, received_chunks := [0], sender_id := [115],
          session_token := [], timestamp := 5 % 2 ^ 64 }
    ∧ deserialize_resume_state (serialize_resume_state
      { file_name := [97], file_size := 1, file_id := 0, chunk_size := 1,
        total_chunks := 1, received_chunks := [0], sender_id := [115],
        session_token := [], timestamp := 0 })
      = { file_name := [97], file_size := 1, file_id := 0, chunk_size := 1,
          total_chunks := 1, received_chunks := [0], sender_id := [115],
          session_token := [], timestamp := 0 } :=
  c3_resume_roundtrip
    { file_name := [97], file_size := 1, file_id := 0, chunk_size := 1,
      total_chunks := 1, received_chunks := [0], sender_id := [115],
      session_token := [], timestamp := 0 } 5
    (by
      refine ⟨?_, ?_, ?_, ?_, ?_, ?_, ?_, ?_, ?_, ?_⟩ <;> decide)

/-! ## C1: filename sanitization

`sanitize_filename` (sanitize.hpp:34-117) runs, in order: the
per-character scrub loop, the leading and trailing dot/space strips,
the reserved-Windows-name prepend, the 240-byte truncation with
extension preservation, and the final empty/dot check substituting
"unnamed". Bytes are `Nat` values; `char` is signed in C++, so bytes
128-255 are negative there and fail `c >= 0 && c < 32` just as they
fail `b < 32` here, and they match no entry of `invalid_chars`.
-/

/-- Bytes of the string literal "unnamed". -/
def unnamedBytes : List Nat := [117, 110, 110, 97, 109, 101, 100]

/-- One iteration of the scrub loop (sanitize.hpp:45-66): drop control
bytes below 32 (the null check is subsumed), replace the path
separators / and \ by an underscore, replace the characters of
`invalid_chars` = < > : " / \ | ? * by an underscore, keep the rest.
(The string literal "<>:\"/\\|?*\0" loses its trailing NUL when
constructing the `std::string`.) -/
def sanitizeChar (b : Nat) : Option Nat :=
  if b < 32 then none
  else if b = 47 ∨ b = 92 then some 95
  else if b = 60 ∨ b = 62 ∨ b = 58 ∨ b = 34 ∨ b = 47 ∨ b = 92
      ∨ b = 124 ∨ b = 63 ∨ b = 42 then some 95
  else some b

/-- The scrub loop over the whole filename (sanitize.hpp:39-66). -/
def sanitize_scrub (filename : List Nat) : List Nat :=
  filename.filterMap sanitizeChar

/-- The character class stripped from both ends (dot or space). -/
def isDotOrSpace (b : Nat) : Bool := b == 46 || b == 32

/-- Leading strip (sanitize.hpp:69-75) then trailing strip
(sanitize.hpp:78-80). -/
def sanitize_trim (r : List Nat) : List Nat :=
  ((r.dropWhile isDotOrSpace).reverse.dropWhile isDotOrSpace).reverse

/-- `::toupper` on a byte in the C locale. -/
def toUpperByte (b : Nat) : Nat :=
  if 97 ≤ b ∧ b ≤ 122 then b - 32 else b

/-- The reserved Windows names (sanitize.hpp:86-90) as byte lists. -/
def reservedNames : List (List Nat) :=
  [[67, 79, 78], [80, 82, 78], [65, 85, 88], [78, 85, 76],
   [67, 79, 77, 49], [67, 79, 77, 50], [67, 79, 77, 51], [67, 79, 77, 52],
   [67, 79, 77, 53], [67, 79, 77, 54], [67, 79, 77, 55], [67, 79, 77, 56],
   [67, 79, 77, 57],
   [76, 80, 84, 49], [76, 80, 84, 50], [76, 80, 84, 51], [76, 80, 84, 52],
   [76, 80, 84, 53], [76, 80, 84, 54], [76, 80, 84, 55], [76, 80, 84, 56],
   [76, 80, 84, 57]]

/-- The reserved-name test (sanitize.hpp:92-97): the uppercased result
equals a reserved name, or its first `name.size()+1` bytes are the
name followed by a dot. -/
def isReservedUpper (upper : List Nat) : Bool :=
  reservedNames.any (fun n => upper == n || beginsWith (n ++ [46]) upper)

/-- The reserved-name prepend (sanitize.hpp:92-97). -/
def sanitize_reserved (r : List Nat) : List Nat :=
  if isReservedUpper (r.map toUpperByte) then 95 :: r else r

/-- The 240-byte truncation (sanitize.hpp:100-109): when the result
exceeds 240 bytes, keep a trailing extension of at most 10 bytes
(located via `rfind`, here the first dot of the reversed list) and
truncate the stem, otherwise truncate to 240 bytes. -/
def truncate240 (r : List Nat) : List Nat :=
  if r.length > 240 then
    match r.reverse.findIdx? (fun b => b == 46) with
    | some k =>
      if k + 1 ≤ 10 then
        r.take (240 - (k + 1)) ++ r.drop (r.length - (k + 1))
      else r.take 240
    | none => r.take 240
  else r

/-- `sanitize_filename` (sanitize.hpp:34-117). -/
def sanitize_filename (filename : List Nat) : List Nat :=
  if filename.isEmpty then unnamedBytes
  else
    let r := truncate240 (sanitize_reserved
      (sanitize_trim (sanitize_scrub filename)))
    if r = [] ∨ r = [46] ∨ r = [46, 46] then unnamedBytes
    else r

/-- A byte that may appear in a sanitized filename: no control byte
below 32 (NUL included) and none of the forbidden characters. -/
@[reducible] def GoodByte (b : Nat) : Prop :=
  32 ≤ b ∧ b ≠ 47 ∧ b ≠ 92 ∧ b ≠ 60 ∧ b ≠ 62 ∧ b ≠ 58 ∧ b ≠ 34
    ∧ b ≠ 124 ∧ b ≠ 63 ∧ b ≠ 42

theorem scrub_good (l : List Nat) : ∀ b ∈ sanitize_scrub l, GoodByte b := by
  intro b hb
  rcases List.mem_filterMap.mp hb with ⟨a, _, hsan⟩
  unfold sanitizeChar at hsan
  by_cases h1 : a < 32
  · rw [if_pos h1] at hsan
    exact absurd hsan (by simp)
  · rw [if_neg h1] at hsan
    by_cases h2 : a = 47 ∨ a = 92
    · rw [if_pos h2] at hsan
      have hab : (95 : Nat) = b := Option.some.inj hsan
      refine ⟨?_, ?_, ?_, ?_, ?_, ?_, ?_, ?_, ?_, ?_⟩ <;> omega
    · rw [if_neg h2] at hsan
      by_cases h3 : a = 60 ∨ a = 62 ∨ a = 58 ∨ a = 34 ∨ a = 47 ∨ a = 92
          ∨ a = 124 ∨ a = 63 ∨ a = 42
      · rw [if_pos h3] at hsan
        have hab : (95 : Nat) = b := Option.some.inj hsan
        refine ⟨?_, ?_, ?_, ?_, ?_, ?_, ?_, ?_, ?_, ?_⟩ <;> omega
      · rw [if_neg h3] at hsan
        have hab : a = b := Option.some.inj hsan
        refine ⟨?_, ?_, ?_, ?_, ?_, ?_, ?_, ?_, ?_, ?_⟩ <;> omega

theorem head?_dropWhile_false (p : Nat → Bool) (l : List Nat) (b : Nat)
    (h : (l.dropWhile p).head? = some b) : p b = false := by
  induction l with
  | nil => simp [List.dropWhile] at h
  | cons a t ih =>
    rw [List.dropWhile_cons] at h
    by_cases hp : p a
    · rw [if_pos hp] at h; exact ih h
    · rw [if_neg hp] at h
      have hab := Option.some.inj h
      rw [← hab]
      exact Bool.eq_false_iff.mpr hp

theorem dropWhile_eq_drop (p : Nat → Bool) (l : List Nat) :
    ∃ n, l.dropWhile p = l.drop n := by
  induction l with
  | nil => exact ⟨0, rfl⟩
  | cons a t ih =>
    by_cases hp : p a
    · obtain ⟨n, hn⟩ := ih
      exact ⟨n + 1, by rw [List.dropWhile_cons, if_pos hp, hn]; rfl⟩
    · exact ⟨0, by rw [List.dropWhile_cons, if_neg hp, List.drop_zero]⟩

theorem getLast?_drop_some (l : List Nat) (n : Nat) (b : Nat)
    (h : (l.drop n).getLast? = some b) : l.getLast? = some b := by
  conv_lhs => rw [← List.take_append_drop n l]
  rw [List.getLast?_append, h]
  rfl

theorem trim_head (r : List Nat) (b : Nat)
    (h : (sanitize_trim r).head? = some b) : isDotOrSpace b = false := by
  unfold sanitize_trim at h
  rw [List.head?_reverse] at h
  obtain ⟨n, hn⟩ := dropWhile_eq_drop isDotOrSpace
    ((r.dropWhile isDotOrSpace).reverse)
  rw [hn] at h
  have h2 := getLast?_drop_some _ n b h
  rw [List.getLast?_reverse] at h2
  exact head?_dropWhile_false _ _ b h2

theorem trim_getLast (r : List Nat) (b : Nat)
    (h : (sanitize_trim r).getLast? = some b) : isDotOrSpace b = false := by
  unfold sanitize_trim at h
  rw [List.getLast?_reverse] at h
  exact head?_dropWhile_false _ _ b h

theorem mem_trim (r : List Nat) (b : Nat) (h : b ∈ sanitize_trim r) :
    b ∈ r := by
  unfold sanitize_trim at h
  rw [List.mem_reverse] at h
  have h2 := (List.dropWhile_sublist _).subset h
  rw [List.mem_reverse] at h2
  exact (List.dropWhile_sublist _).subset h2

theorem head?_take_some (l : List Nat) (m : Nat) (b : Nat)
    (h : (l.take m).head? = some b) : l.head? = some b := by
  cases l with
  | nil => simp at h
  | cons a t =>
    cases m with
    | zero => simp at h
    | succ m => simpa using h

theorem head?_append_some (l l2 : List Nat) (b : Nat)
    (h : (l ++ l2).head? = some b) : l = [] ∨ l.head? = some b := by
  cases l with
  | nil => exact Or.inl rfl
  | cons a t => exact Or.inr (by simpa using h)

theorem head?_truncate240 (r : List Nat) (b : Nat)
    (h : (truncate240 r).head? = some b) : r.head? = some b := by
  unfold truncate240 at h
  by_cases hlen : r.length > 240
  · rw [if_pos hlen] at h
    rcases hidx : r.reverse.findIdx? (fun x => x == 46) with _ | k
    · rw [hidx] at h
      exact head?_take_some _ _ b h
    · rw [hidx] at h
      have h2 : (if k + 1 ≤ 10 then
          r.take (240 - (k + 1)) ++ r.drop (r.length - (k + 1))
          else r.take 240).head? = some b := h
      by_cases hk : k + 1 ≤ 10
      · rw [if_pos hk] at h2
        rcases head?_append_some _ _ b h2 with he | hs
        · exfalso
          rcases List.take_eq_nil_iff.mp he with h0 | h0
          · omega
          · rw [h0] at hlen
            simp at hlen
        · exact head?_take_some _ _ b hs
      · rw [if_neg hk] at h2
        exact head?_take_some _ _ b h2
  · rw [if_neg hlen] at h
    exact h

theorem truncate240_of_le (r : List Nat) (h : ¬ r.length > 240) :
    truncate240 r = r := by
  unfold truncate240
  rw [if_neg h]

theorem truncate240_length_of_gt (r : List Nat) (h : r.length > 240) :
    (truncate240 r).length = 240 := by
  unfold truncate240
  rw [if_pos h]
  rcases hidx : r.reverse.findIdx? (fun x => x == 46) with _ | k
  · show (r.take 240).length = 240
    rw [List.length_take, Nat.min_eq_left (by omega : 240 ≤ r.length)]
  · show (if k + 1 ≤ 10 then
        r.take (240 - (k + 1)) ++ r.drop (r.length - (k + 1))
        else r.take 240).length = 240
    by_cases hk : k + 1 ≤ 10
    · rw [if_pos hk, List.length_append, List.length_take,
        List.length_drop,
        Nat.min_eq_left (by omega : 240 - (k + 1) ≤ r.length)]
      omega
    · rw [if_neg hk, List.length_take,
        Nat.min_eq_left (by omega : 240 ≤ r.length)]

theorem mem_truncate240 (r : List Nat) (b : Nat) (h : b ∈ truncate240 r) :
    b ∈ r := by
  unfold truncate240 at h
  by_cases hlen : r.length > 240
  · rw [if_pos hlen] at h
    rcases hidx : r.reverse.findIdx? (fun x => x == 46) with _ | k
    · rw [hidx] at h
      exact List.take_subset _ _ h
    · rw [hidx] at h
      have h2 : b ∈ (if k + 1 ≤ 10 then
          r.take (240 - (k + 1)) ++ r.drop (r.length - (k + 1))
          else r.take 240) := h
      by_cases hk : k + 1 ≤ 10
      · rw [if_pos hk] at h2
        rcases List.mem_append.mp h2 with h1 | h1
        · exact List.take_subset _ _ h1
        · exact List.drop_subset _ _ h1
      · rw [if_neg hk] at h2
        exact List.take_subset _ _ h2
  · rw [if_neg hlen] at h
    exact h

theorem mem_reserved (r : List Nat) (b : Nat)
    (h : b ∈ sanitize_reserved r) : b = 95 ∨ b ∈ r := by
  unfold sanitize_reserved at h
  by_cases hres : isReservedUpper (r.map toUpperByte) = true
  · rw [if_pos hres] at h
    rcases List.mem_cons.mp h with h1 | h1
    · exact Or.inl h1
    · exact Or.inr h1
  · rw [if_neg hres] at h
    exact Or.inr h

theorem reserved_head (r : List Nat) (b : Nat)
    (h : (sanitize_reserved r).head? = some b) :
    b = 95 ∨ r.head? = some b := by
  unfold sanitize_reserved at h
  by_cases hres : isReservedUpper (r.map toUpperByte) = true
  · rw [if_pos hres] at h
    exact Or.inl (Option.some.inj h).symm
  · rw [if_neg hres] at h
    exact Or.inr h

theorem reserved_getLast (r : List Nat) (b : Nat)
    (h : (sanitize_reserved r).getLast? = some b) :
    b = 95 ∨ r.getLast? = some b := by
  unfold sanitize_reserved at h
  by_cases hres : isReservedUpper (r.map toUpperByte) = true
  · rw [if_pos hres] at h
    cases r with
    | nil => exact Or.inl (Option.some.inj h).symm
    | cons a t =>
      rw [List.getLast?_cons_cons] at h
      exact Or.inr h
  · rw [if_neg hres] at h
    exact Or.inr h

theorem reserved_length (r : List Nat) :
    r.length ≤ (sanitize_reserved r).length := by
  unfold sanitize_reserved
  by_cases hres : isReservedUpper (r.map toUpperByte) = true
  · rw [if_pos hres]; simp
  · rw [if_neg hres]

theorem sanitize_filename_eq (filename : List Nat)
    (hemp : filename.isEmpty = false) :
    sanitize_filename filename
      = (if truncate240 (sanitize_reserved
            (sanitize_trim (sanitize_scrub filename))) = []
          ∨ truncate240 (sanitize_reserved
            (sanitize_trim (sanitize_scrub filename))) = [46]
          ∨ truncate240 (sanitize_reserved
            (sanitize_trim (sanitize_scrub filename))) = [46, 46]
        then unnamedBytes
        else truncate240 (sanitize_reserved
          (sanitize_trim (sanitize_scrub filename)))) := by
  unfold sanitize_filename
  rw [hemp]
  simp

theorem unnamed_props :
    (∀ b ∈ unnamedBytes, GoodByte b)
    ∧ (∀ b, unnamedBytes.head? = some b → b ≠ 46 ∧ b ≠ 32)
    ∧ (unnamedBytes.length < 240 →
        ∀ b, unnamedBytes.getLast? = some b → b ≠ 46 ∧ b ≠ 32)
    ∧ unnamedBytes.length ≤ 240
    ∧ unnamedBytes ≠ [] ∧ unnamedBytes ≠ [46] ∧ unnamedBytes ≠ [46, 46] := by
  refine ⟨by decide, ?_, ?_, by decide, by decide, by decide, by decide⟩
  · intro b h
    have hb : (117 : Nat) = b := Option.some.inj h
    omega
  · intro _ b h
    have hb : (100 : Nat) = b := Option.some.inj h
    omega

/-- C1 as amended: every sanitized filename S contains no forbidden
character and no control byte below 32, does not begin with a dot or
space, has at most 240 bytes, and is none of "", ".", ".."; moreover S
does not end with a dot or space whenever its length is below 240 -
when the 240-byte truncation fires (exactly then len(S) = 240), a
trailing dot or space can be reintroduced, because the truncation runs
after the trailing strip. -/
theorem c1_sanitize_filename_guarantees (filename : List Nat) :
    (∀ b ∈ sanitize_filename filename, GoodByte b)
    ∧ (∀ b, (sanitize_filename filename).head? = some b →
        b ≠ 46 ∧ b ≠ 32)
    ∧ ((sanitize_filename filename).length < 240 →
        ∀ b, (sanitize_filename filename).getLast? = some b →
          b ≠ 46 ∧ b ≠ 32)
    ∧ (sanitize_filename filename).length ≤ 240
    ∧ sanitize_filename filename ≠ []
    ∧ sanitize_filename filename ≠ [46]
    ∧ sanitize_filename filename ≠ [46, 46] := by
  by_cases hemp : filename.isEmpty = true
  · have hS : sanitize_filename filename = unnamedBytes := by
      unfold sanitize_filename
      rw [if_pos hemp]
    rw [hS]
    exact unnamed_props
  · have hS := sanitize_filename_eq filename (Bool.eq_false_iff.mpr hemp)
    by_cases hbad : truncate240 (sanitize_reserved
        (sanitize_trim (sanitize_scrub filename))) = []
      ∨ truncate240 (sanitize_reserved
        (sanitize_trim (sanitize_scrub filename))) = [46]
      ∨ truncate240 (sanitize_reserved
        (sanitize_trim (sanitize_scrub filename))) = [46, 46]
    · rw [if_pos hbad] at hS
      rw [hS]
      exact unnamed_props
    · rw [if_neg hbad] at hS
      rw [hS]
      push_neg at hbad
      refine ⟨?_, ?_, ?_, ?_, hbad.1, hbad.2.1, hbad.2.2⟩
      · intro b hb
        rcases mem_reserved _ _ (mem_truncate240 _ _ hb) with rfl | hb3
        · exact (by decide : GoodByte 95)
        · exact scrub_good _ b (mem_trim _ _ hb3)
      · intro b hh
        rcases reserved_head _ _ (head?_truncate240 _ _ hh) with rfl | hh3
        · exact ⟨by omega, by omega⟩
        · have hds := trim_head _ _ hh3
          simpa [isDotOrSpace] using hds
      · intro hlen b hg
        by_cases h240 : (sanitize_reserved
            (sanitize_trim (sanitize_scrub filename))).length > 240
        · rw [truncate240_length_of_gt _ h240] at hlen
          omega
        · rw [truncate240_of_le _ h240] at hg
          rcases reserved_getLast _ _ hg with rfl | hg2
          · exact ⟨by omega, by omega⟩
          · have hds := trim_getLast _ _ hg2
            simpa [isDotOrSpace] using hds
      · by_cases h240 : (sanitize_reserved
            (sanitize_trim (sanitize_scrub filename))).length > 240
        · rw [truncate240_length_of_gt _ h240]
        · rw [truncate240_of_le _ h240]
          omega

set_option maxRecDepth 100000

/-- C1 counterexample: the raw name of 239 letters a, a dot, and ten
letters b passes the trailing strip unchanged (it ends in a letter),
exceeds 240 bytes, has its extension of 11 bytes judged too long to
preserve, and is cut to its first 240 bytes - whose last byte is the
dot. The sanitized result ends with a dot, contradicting the claim. -/
theorem c1_trailing_dot_counterexample :
    (sanitize_filename
      (List.replicate 239 97 ++ [46] ++ List.replicate 10 98)).getLast?
        = some 46
    ∧ (sanitize_filename
      (List.replicate 239 97 ++ [46] ++ List.replicate 10 98)).length
        = 240 := by
  constructor
  · decide
  · decide

/-- Witness for C1: the name hi.txt is below 240 bytes and its
sanitized form ends neither with a dot nor with a space. -/
theorem c1_sanitize_filename_guarantees_witness :
    (sanitize_filename [104, 105, 46, 116, 120, 116]).length < 240
    ∧ (∀ b, (sanitize_filename
        [104, 105, 46, 116, 120, 116]).getLast? = some b →
        b ≠ 46 ∧ b ≠ 32) :=
  ⟨by decide,
   (c1_sanitize_filename_guarantees [104, 105, 46, 116, 120, 116]).2.2.1
     (by decide)⟩

end Teleport
